import Mathlib

/-!
# HTTP Basic Auth gate and method router of the GCS proxy (`main.go`)

A shallow embedding of `BasicAuth` and `ProxyHTTPGCS` from `main.go`, together with the
pieces of the Go standard library they call (`strings.Split`, `subtle.ConstantTimeCompare`,
`(*http.Request).BasicAuth`, `http.ResponseWriter`, `http.Error`), and the properties of the
authentication gate and of the router proved over that embedding.

Conventions.
* A Go `string` / `[]byte` is a finite sequence of bytes. It is modelled as a list of
  characters, one character per byte; the only operations the program performs on strings are
  concatenation, splitting at a one-byte separator and bytewise comparison.
* A runtime panic is an explicit `Except.error`; a handler is a function from the state of the
  response writer and the request to either a panic or the new state of the response writer.
-/

namespace GcsProxy

/-- A Go string: a sequence of bytes. -/
abbrev GoString := List Char

/-- Runtime panics of the Go program. -/
inductive Fault where
  /-- The Go panic `index out of range [i] with length n`. -/
  | indexOutOfRange (i n : Nat)
  /-- Any panic raised by code outside `main.go` (a downstream handler). -/
  | other (msg : GoString)
  deriving DecidableEq, Repr

/-! ## Standard library: strings and constant time comparison -/

/-- The Go call `strings.Split(s, sep)` for a separator `sep` of one byte: the substrings of
`s` between the occurrences of `sep`. The result has one more element than `s` has
occurrences of `sep`; in particular `strings.Split("", sep)` is the one-element slice `[""]`.
The result is never empty (`stringsSplit_ne_nil`), so the branch `[] => [[c]]` is never taken. -/
def stringsSplit (sep : Char) : GoString → List GoString
  | [] => [[]]
  | c :: s =>
    if c = sep then [] :: stringsSplit sep s
    else
      match stringsSplit sep s with
      | [] => [[c]]
      | field :: fields => (c :: field) :: fields

/-- The accumulator `v` of `subtle.ConstantTimeCompare`: `v |= x[i] ^ y[i]` for every `i`. -/
def xorFold : Nat → GoString → GoString → Nat
  | v, a :: x, b :: y => xorFold (v ||| (a.toNat ^^^ b.toNat)) x y
  | v, _, _ => v

/-- The Go function `subtle.ConstantTimeCompare(x, y)`: `0` at once when the lengths differ,
otherwise the OR of the XORs of all byte pairs is computed over the whole length and the
result is `1` when it is zero and `0` when it is not. -/
def ConstantTimeCompare (x y : GoString) : Nat :=
  if x.length ≠ y.length then 0
  else if xorFold 0 x y = 0 then 1 else 0

/-- The Go index expression `a[i]` on a slice: panics when `i` is not below `len(a)`. -/
def index (a : List GoString) (i : Nat) : Except Fault GoString :=
  match a.get? i with
  | some x => .ok x
  | none => .error (Fault.indexOutOfRange i a.length)

/-! ## Standard library: requests and response writers -/

/-- The part of `*http.Request` the program reads: the method, the URL path, and the
credentials carried by the `Authorization` header (`none` when the header is absent or is not
a well-formed Basic credential). -/
structure Request where
  Method : GoString
  Path : GoString
  Authorization : Option (GoString × GoString)
  deriving DecidableEq, Repr

/-- The method `r.BasicAuth()`: `(username, password, ok)`; username and password are empty
when `ok` is false. -/
def Request.BasicAuth (r : Request) : GoString × GoString × Bool :=
  match r.Authorization with
  | some (username, password) => (username, password, true)
  | none => ([], [], false)

/-- The observable state of an `http.ResponseWriter`: the header map, the status code once
`WriteHeader` has been called (`none` before), and the body written so far. -/
structure ResponseWriter where
  header : List (GoString × GoString)
  statusCode : Option Nat
  body : GoString
  deriving DecidableEq, Repr

/-- A response writer as the server hands it to the registered handler: nothing written. -/
def ResponseWriter.fresh : ResponseWriter := ⟨[], none, []⟩

/-- The call `w.Header().Set(key, value)`: the entry for `key` is replaced by `value`. -/
def ResponseWriter.HeaderSet (w : ResponseWriter) (key value : GoString) : ResponseWriter :=
  { w with header := (key, value) :: w.header.filter (fun kv => kv.1 ≠ key) }

/-- The call `w.Header().Get(key)`. -/
def ResponseWriter.HeaderGet (w : ResponseWriter) (key : GoString) : Option GoString :=
  w.header.lookup key

/-- The call `w.WriteHeader(code)`: fixes the status code; a second call has no effect. -/
def ResponseWriter.WriteHeader (w : ResponseWriter) (code : Nat) : ResponseWriter :=
  match w.statusCode with
  | none => { w with statusCode := some code }
  | some _ => w

/-- The call `w.Write(b)`: an implicit `WriteHeader(200)` when no status was written yet, then
the bytes are appended to the body. -/
def ResponseWriter.Write (w : ResponseWriter) (b : GoString) : ResponseWriter :=
  let w1 := w.WriteHeader 200
  { w1 with body := w1.body ++ b }

/-- The Go type `http.HandlerFunc`: a call `handler(w, r)` either panics or leaves the response
writer in a new state. -/
abbrev HandlerFunc := ResponseWriter → Request → Except Fault ResponseWriter

/-- The Go function `http.Error(w, error, code)`: sets `Content-Type` and
`X-Content-Type-Options`, writes the status code, and prints the message with
`fmt.Fprintln`, that is, followed by a newline. -/
def httpError (w : ResponseWriter) (error : GoString) (code : Nat) : ResponseWriter :=
  let w1 := w.HeaderSet "Content-Type".toList "text/plain; charset=utf-8".toList
  let w2 := w1.HeaderSet "X-Content-Type-Options".toList "nosniff".toList
  let w3 := w2.WriteHeader code
  w3.Write (error ++ ['\n'])

/-! ## `main.go` -/

/-- The loop of `BasicAuth` (lines 50-57) over the remaining entries: each entry is split at
`':'`, the supplied user is compared with `userPass[0]` and, only when that comparison
succeeded (`&&`), the supplied password with `userPass[1]`; the loop leaves at the first
entry for which both succeed. The result is the final value of `loginFound`. -/
def loginLoop (user pass : GoString) : List GoString → Except Fault Bool
  | [] => .ok false
  | usernamePassword :: rest => do
    let userPass := stringsSplit ':' usernamePassword
    let userPass0 ← index userPass 0
    let loginFound ←
      if ConstantTimeCompare user userPass0 = 1 then do
        let userPass1 ← index userPass 1
        pure (decide (ConstantTimeCompare pass userPass1 = 1))
      else pure false
    if loginFound then pure true else loginLoop user pass rest

/-- The 401 response of `BasicAuth` (lines 60-62). -/
def unauthorised (realm : GoString) (w : ResponseWriter) : ResponseWriter :=
  let w1 := w.HeaderSet "WWW-Authenticate".toList ("Basic realm=\"".toList ++ realm ++ "\"".toList)
  let w2 := w1.WriteHeader 401
  w2.Write "Unauthorised.\n".toList

/-- The function `BasicAuth(handler, usernamesPasswords, realm)` of `main.go`: the returned
handler. -/
def BasicAuth (handler : HandlerFunc) (usernamesPasswords realm : GoString) : HandlerFunc :=
  fun w r => do
    let (user, pass, ok) := r.BasicAuth
    let eachUsernamePassword := stringsSplit ',' usernamesPasswords
    let loginFound ← loginLoop user pass eachUsernamePassword
    if !ok || !loginFound then
      pure (unauthorised realm w)
    else
      handler w r

/-- The function `ProxyHTTPGCS(output, input)` of `main.go`. The storage collaborator
`config.GET` belongs to another package and is a parameter. -/
def ProxyHTTPGCS (GET : HandlerFunc) : HandlerFunc :=
  fun output input =>
    if input.Method = "GET".toList then GET output input
    else pure (httpError output "405 - Method Not Allowed".toList 405)

/-! ## Notions used to state the properties -/

/-- Whether the first two colon-separated fields of an entry are the given user and password. -/
def firstTwoMatch (user pass entry : GoString) : Bool :=
  decide ((stringsSplit ':' entry).take 2 = [user, pass])

/-- The configuration string of a credential list: the entries `u ++ ":" ++ p`, joined
with `","`. -/
def credentialConfig (creds : List (GoString × GoString)) : GoString :=
  [','].intercalate (creds.map fun c => c.1 ++ ':' :: c.2)

/-- The configuration string of a list of entries: the entries joined with `","`. -/
def joinEntries (entries : List GoString) : GoString :=
  [','].intercalate entries

/-- Whether the gate rejects the request: the loop of lines 50-57 completes and the condition
`!ok || !loginFound` of line 59 holds. -/
def rejects (usernamesPasswords : GoString) (r : Request) : Bool :=
  match loginLoop r.BasicAuth.1 r.BasicAuth.2.1 (stringsSplit ',' usernamesPasswords) with
  | .ok loginFound => !r.BasicAuth.2.2 || !loginFound
  | .error _ => false

/-- Whether, scanning the entries in order, an entry that contains no `:` and whose whole text
is the user occurs before any entry whose first two colon-separated fields are the user and
the password: some entry among those that precede the first such entry (all entries when
there is none) is free of `:` and equal to the user. -/
def colonlessBeforeMatch (user pass : GoString) (entries : List GoString) : Bool :=
  (entries.takeWhile fun e => !firstTwoMatch user pass e).any fun e =>
    decide (':' ∉ e ∧ e = user)

/-! ## Configurations and requests used as concrete instances -/

/-- The configuration of the documentation of `BasicAuth`. -/
def mikeSam : GoString := "mike:abc123,sam:def456".toList

/-- A request with the given method for `/file.txt`, carrying the given credentials. -/
def requestWith (method user pass : String) : Request :=
  ⟨method.toList, "/file.txt".toList, some (user.toList, pass.toList)⟩

/-- A request with the given method for `/file.txt` without `Authorization` header. -/
def requestNoHeader (method : String) : Request :=
  ⟨method.toList, "/file.txt".toList, none⟩

/-- A downstream handler that leaves a mark: it writes `served ` and the path to the body. -/
def probe : HandlerFunc :=
  fun w r => .ok (w.Write ("served ".toList ++ r.Path))

/-- The rejection of a request that arrived on a fresh response writer, field by field. -/
def rejection (realm : String) : ResponseWriter :=
  ⟨[("WWW-Authenticate".toList, "Basic realm=\"".toList ++ realm.toList ++ "\"".toList)],
    some 401, "Unauthorised.\n".toList⟩

/-! ## Lemmas on the standard library model -/

theorem lor_eq_zero (a b : Nat) : a ||| b = 0 ↔ a = 0 ∧ b = 0 := by
  constructor
  · intro h
    refine ⟨Nat.eq_of_testBit_eq fun i => ?_, Nat.eq_of_testBit_eq fun i => ?_⟩
    · have := congrArg (fun n => n.testBit i) h
      simp only [Nat.testBit_or, Nat.zero_testBit, Bool.or_eq_false_iff] at this
      simpa using this.1
    · have := congrArg (fun n => n.testBit i) h
      simp only [Nat.testBit_or, Nat.zero_testBit, Bool.or_eq_false_iff] at this
      simpa using this.2
  · rintro ⟨rfl, rfl⟩
    rfl

theorem char_toNat_inj (a b : Char) (h : a.toNat = b.toNat) : a = b := by
  apply Char.ext
  apply UInt32.ext
  exact h

theorem xorFold_eq_zero (x : GoString) : ∀ (v : Nat) (y : GoString), x.length = y.length →
    (xorFold v x y = 0 ↔ v = 0 ∧ x = y) := by
  induction x with
  | nil =>
    intro v y hlen
    cases y with
    | nil => simp [xorFold]
    | cons b y => simp at hlen
  | cons a x ih =>
    intro v y hlen
    cases y with
    | nil => simp at hlen
    | cons b y =>
      have hlen' : x.length = y.length := by simpa using hlen
      rw [xorFold, ih _ y hlen', lor_eq_zero, Nat.xor_eq_zero]
      constructor
      · rintro ⟨⟨hv, hab⟩, hxy⟩
        exact ⟨hv, by rw [char_toNat_inj a b hab, hxy]⟩
      · rintro ⟨hv, hxy⟩
        injection hxy with hab hxy
        exact ⟨⟨hv, by rw [hab]⟩, hxy⟩

/-- The comparison primitive decides equality of byte strings. -/
theorem ConstantTimeCompare_eq_one_iff (x y : GoString) :
    ConstantTimeCompare x y = 1 ↔ x = y := by
  unfold ConstantTimeCompare
  by_cases hlen : x.length = y.length
  · have h := xorFold_eq_zero x 0 y hlen
    by_cases hv : xorFold 0 x y = 0
    · obtain ⟨_, rfl⟩ := h.mp hv
      simp [hv]
    · have hne : x ≠ y := fun hxy => hv (h.mpr ⟨rfl, hxy⟩)
      simp [hlen, hv, hne]
  · have hne : x ≠ y := fun hxy => hlen (by rw [hxy])
    simp [hlen, hne]

theorem stringsSplit_eq_splitOn (sep : Char) (s : GoString) :
    stringsSplit sep s = s.splitOn sep := by
  induction s with
  | nil => simp [stringsSplit]
  | cons c s ih =>
    rw [stringsSplit, ih]
    simp only [List.splitOn]
    rw [List.splitOnP_cons]
    by_cases h : c = sep
    · simp [h]
    · simp only [h, if_false, beq_iff_eq]
      have hne : List.splitOnP (fun x => x == sep) s ≠ [] := List.splitOnP_ne_nil _ _
      cases hs : List.splitOnP (fun x => x == sep) s with
      | nil => exact absurd hs hne
      | cons f fs => simp

theorem stringsSplit_ne_nil (sep : Char) (s : GoString) : stringsSplit sep s ≠ [] := by
  rw [stringsSplit_eq_splitOn]
  exact List.splitOnP_ne_nil _ _

/-- Splitting a comma-joined list of comma-free entries gives the entries back. -/
theorem stringsSplit_intercalate (sep : Char) (ls : List GoString)
    (hx : ∀ l ∈ ls, sep ∉ l) (hls : ls ≠ []) :
    stringsSplit sep ([sep].intercalate ls) = ls := by
  rw [stringsSplit_eq_splitOn]
  exact List.splitOn_intercalate ls sep hx hls

theorem stringsSplit_pair (sep : Char) (u p : GoString) (hu : sep ∉ u) (hp : sep ∉ p) :
    stringsSplit sep (u ++ sep :: p) = [u, p] := by
  have h := stringsSplit_intercalate sep [u, p] (by simp [hu, hp]) (by simp)
  simpa [List.intercalate] using h

/-! ## Lemmas on the loop and on the gate -/

theorem loginLoop_cons_one (user pass e a : GoString) (rest : List GoString)
    (h : stringsSplit ':' e = [a]) :
    loginLoop user pass (e :: rest) =
      if user = a then .error (Fault.indexOutOfRange 1 1) else loginLoop user pass rest := by
  by_cases hu : user = a
  · subst hu
    have hc : ConstantTimeCompare user user = 1 := (ConstantTimeCompare_eq_one_iff _ _).mpr rfl
    simp [loginLoop, h, index, hc, bind, Except.bind]
  · have hc : ConstantTimeCompare user a ≠ 1 := fun hc =>
      hu ((ConstantTimeCompare_eq_one_iff _ _).mp hc)
    simp [loginLoop, h, index, hc, hu, bind, Except.bind, pure, Except.pure]

theorem loginLoop_cons_two (user pass e a b : GoString) (fs rest : List GoString)
    (h : stringsSplit ':' e = a :: b :: fs) :
    loginLoop user pass (e :: rest) =
      if user = a ∧ pass = b then .ok true else loginLoop user pass rest := by
  by_cases hu : user = a
  · subst hu
    have hc : ConstantTimeCompare user user = 1 := (ConstantTimeCompare_eq_one_iff _ _).mpr rfl
    by_cases hp : pass = b
    · subst hp
      have hd : ConstantTimeCompare pass pass = 1 := (ConstantTimeCompare_eq_one_iff _ _).mpr rfl
      simp [loginLoop, h, index, hc, hd, bind, Except.bind, pure, Except.pure]
    · have hd : ConstantTimeCompare pass b ≠ 1 := fun hd =>
        hp ((ConstantTimeCompare_eq_one_iff _ _).mp hd)
      simp [loginLoop, h, index, hc, hd, hp, bind, Except.bind, pure, Except.pure]
  · have hc : ConstantTimeCompare user a ≠ 1 := fun hc =>
      hu ((ConstantTimeCompare_eq_one_iff _ _).mp hc)
    simp [loginLoop, h, index, hc, hu, bind, Except.bind, pure, Except.pure]

/-- When every entry has at least two fields the loop does not panic, and it finds a login
exactly when the first two fields of some entry are the supplied user and password. -/
theorem loginLoop_of_two_fields (user pass : GoString) (es : List GoString)
    (hwf : ∀ e ∈ es, 2 ≤ (stringsSplit ':' e).length) :
    loginLoop user pass es = .ok (es.any (firstTwoMatch user pass)) := by
  induction es with
  | nil => rfl
  | cons e rest ih =>
    have he := hwf e (List.mem_cons_self _ _)
    have ih' := ih fun x hx => hwf x (List.mem_cons_of_mem _ hx)
    match hs : stringsSplit ':' e, he with
    | a :: b :: fs, _ =>
      rw [loginLoop_cons_two user pass e a b fs rest hs, ih']
      by_cases hm : user = a ∧ pass = b
      · obtain ⟨rfl, rfl⟩ := hm
        simp [firstTwoMatch, hs]
      · have hm' : ¬ (a = user ∧ b = pass) := fun h => hm ⟨h.1.symm, h.2.symm⟩
        simp [firstTwoMatch, hs, hm, hm']

theorem BasicAuth_of_header (handler : HandlerFunc) (cfg realm u p : GoString)
    (w : ResponseWriter) (r : Request) (b : Bool) (hreq : r.Authorization = some (u, p))
    (hl : loginLoop u p (stringsSplit ',' cfg) = .ok b) :
    BasicAuth handler cfg realm w r = if b then handler w r else .ok (unauthorised realm w) := by
  cases b <;> simp [BasicAuth, Request.BasicAuth, hreq, hl, bind, Except.bind, pure, Except.pure]

theorem BasicAuth_of_no_header (handler : HandlerFunc) (cfg realm : GoString)
    (w : ResponseWriter) (r : Request) (b : Bool) (hreq : r.Authorization = none)
    (hl : loginLoop [] [] (stringsSplit ',' cfg) = .ok b) :
    BasicAuth handler cfg realm w r = .ok (unauthorised realm w) := by
  cases b <;> simp [BasicAuth, Request.BasicAuth, hreq, hl, bind, Except.bind, pure, Except.pure]

theorem BasicAuth_of_fault (handler : HandlerFunc) (cfg realm : GoString)
    (w : ResponseWriter) (r : Request) (f : Fault)
    (hl : loginLoop r.BasicAuth.1 r.BasicAuth.2.1 (stringsSplit ',' cfg) = .error f) :
    BasicAuth handler cfg realm w r = .error f := by
  simp [BasicAuth, hl, bind, Except.bind]

theorem unauthorised_statusCode (realm : GoString) (w : ResponseWriter)
    (hw : w.statusCode = none) : (unauthorised realm w).statusCode = some 401 := by
  simp [unauthorised, ResponseWriter.Write, ResponseWriter.WriteHeader,
    ResponseWriter.HeaderSet, hw]

theorem unauthorised_header (realm : GoString) (w : ResponseWriter) :
    (unauthorised realm w).HeaderGet "WWW-Authenticate".toList =
      some ("Basic realm=\"".toList ++ realm ++ "\"".toList) := by
  cases hs : w.statusCode <;>
    simp [unauthorised, ResponseWriter.Write, ResponseWriter.WriteHeader,
      ResponseWriter.HeaderSet, ResponseWriter.HeaderGet, hs, List.lookup]

theorem unauthorised_body (realm : GoString) (w : ResponseWriter) :
    (unauthorised realm w).body = w.body ++ "Unauthorised.\n".toList := by
  cases hs : w.statusCode <;>
    simp [unauthorised, ResponseWriter.Write, ResponseWriter.WriteHeader,
      ResponseWriter.HeaderSet, hs]

/-- With no entry lacking a colon, a request with a well-formed header passes the gate when
the first two fields of some entry are its user and password. -/
theorem BasicAuth_pass (handler : HandlerFunc) (cfg realm u p : GoString)
    (w : ResponseWriter) (r : Request)
    (hwf : ∀ e ∈ stringsSplit ',' cfg, 2 ≤ (stringsSplit ':' e).length)
    (hmem : ∃ e ∈ stringsSplit ',' cfg, (stringsSplit ':' e).take 2 = [u, p])
    (hreq : r.Authorization = some (u, p)) :
    BasicAuth handler cfg realm w r = handler w r := by
  have hloop := loginLoop_of_two_fields u p (stringsSplit ',' cfg) hwf
  have hany : (stringsSplit ',' cfg).any (firstTwoMatch u p) = true := by
    rw [List.any_eq_true]
    obtain ⟨e, he, hm⟩ := hmem
    exact ⟨e, he, by simp [firstTwoMatch, hm]⟩
  rw [hany] at hloop
  rw [BasicAuth_of_header handler cfg realm u p w r true hreq hloop]
  rfl

/-- With no entry lacking a colon, a request with a well-formed header is rejected when the
first two fields of no entry are its user and password. -/
theorem BasicAuth_reject (handler : HandlerFunc) (cfg realm u p : GoString)
    (w : ResponseWriter) (r : Request)
    (hwf : ∀ e ∈ stringsSplit ',' cfg, 2 ≤ (stringsSplit ':' e).length)
    (hno : ¬ ∃ e ∈ stringsSplit ',' cfg, (stringsSplit ':' e).take 2 = [u, p])
    (hreq : r.Authorization = some (u, p)) :
    BasicAuth handler cfg realm w r = .ok (unauthorised realm w) := by
  have hloop := loginLoop_of_two_fields u p (stringsSplit ',' cfg) hwf
  have hany : (stringsSplit ',' cfg).any (firstTwoMatch u p) = false := by
    rw [List.any_eq_false]
    intro e he
    have : (stringsSplit ':' e).take 2 ≠ [u, p] := fun h => hno ⟨e, he, h⟩
    simp [firstTwoMatch, this]
  rw [hany] at hloop
  rw [BasicAuth_of_header handler cfg realm u p w r false hreq hloop]
  rfl

theorem take_two_of_length_two (l : List GoString) (h : l.length = 2) : l.take 2 = l :=
  List.take_of_length_le (by rw [h])

theorem httpError_statusCode (w : ResponseWriter) (msg : GoString) (code : Nat)
    (hw : w.statusCode = none) : (httpError w msg code).statusCode = some code := by
  simp [httpError, ResponseWriter.Write, ResponseWriter.WriteHeader,
    ResponseWriter.HeaderSet, hw]

theorem httpError_body (w : ResponseWriter) (msg : GoString) (code : Nat) :
    (httpError w msg code).body = w.body ++ (msg ++ ['\n']) := by
  cases hs : w.statusCode <;>
    simp [httpError, ResponseWriter.Write, ResponseWriter.WriteHeader,
      ResponseWriter.HeaderSet, hs]

/-! ## The gate: completeness, soundness, missing header -/

/-- C1 (completeness of the gate). For a configuration string obtained by joining with `,`
the entries `u:p` of a credential list in which no user and no password contains `,` or `:`,
a request whose Basic Auth header is present and carries a pair of the list makes the
function returned by `BasicAuth` behave, for every realm, every downstream handler and every
state of the response writer, exactly as the single call `handler(w, r)` on the original
response writer and request: the gate does not panic and writes nothing of its own. -/
theorem BasicAuth_complete (handler : HandlerFunc) (creds : List (GoString × GoString))
    (realm u p : GoString) (w : ResponseWriter) (r : Request)
    (hwf : ∀ c ∈ creds, ',' ∉ c.1 ∧ ':' ∉ c.1 ∧ ',' ∉ c.2 ∧ ':' ∉ c.2)
    (hmem : (u, p) ∈ creds) (hreq : r.Authorization = some (u, p)) :
    BasicAuth handler (credentialConfig creds) realm w r = handler w r := by
  have hsplit : stringsSplit ',' (credentialConfig creds) =
      creds.map fun c => c.1 ++ ':' :: c.2 := by
    apply stringsSplit_intercalate
    · intro l hl
      obtain ⟨c, hc, rfl⟩ := List.mem_map.mp hl
      obtain ⟨h1, _, h3, _⟩ := hwf c hc
      simp [h1, h3]
    · intro hnil
      rw [List.map_eq_nil_iff] at hnil
      rw [hnil] at hmem
      exact absurd hmem (List.not_mem_nil _)
  have hfields : ∀ c ∈ creds, stringsSplit ':' (c.1 ++ ':' :: c.2) = [c.1, c.2] := by
    intro c hc
    obtain ⟨_, h2, _, h4⟩ := hwf c hc
    exact stringsSplit_pair ':' c.1 c.2 h2 h4
  have hloop := loginLoop_of_two_fields u p (creds.map fun c => c.1 ++ ':' :: c.2) (by
    intro e he
    obtain ⟨c, hc, rfl⟩ := List.mem_map.mp he
    rw [hfields c hc]
    simp)
  have hany : (creds.map fun c => c.1 ++ ':' :: c.2).any (firstTwoMatch u p) = true := by
    rw [List.any_eq_true]
    refine ⟨u ++ ':' :: p, List.mem_map.mpr ⟨(u, p), hmem, rfl⟩, ?_⟩
    have := hfields (u, p) hmem
    simp only at this
    simp [firstTwoMatch, this]
  rw [hany, ← hsplit] at hloop
  rw [BasicAuth_of_header handler _ realm u p w r true hreq hloop]
  rfl

/-- C1 at the configuration `mike:abc123,sam:def456`: with the credentials of either entry the
probe handler runs once on the fresh response writer. -/
theorem BasicAuth_complete_witness :
    BasicAuth probe mikeSam "Sign in".toList ResponseWriter.fresh
        (requestWith "GET" "mike" "abc123") =
      .ok ⟨[], some 200, "served /file.txt".toList⟩
    ∧ BasicAuth probe mikeSam "Sign in".toList ResponseWriter.fresh
        (requestWith "GET" "sam" "def456") =
      .ok ⟨[], some 200, "served /file.txt".toList⟩ :=
  ⟨BasicAuth_complete probe
      [("mike".toList, "abc123".toList), ("sam".toList, "def456".toList)]
      "Sign in".toList "mike".toList "abc123".toList ResponseWriter.fresh
      (requestWith "GET" "mike" "abc123") (by decide) (by decide) rfl,
   BasicAuth_complete probe
      [("mike".toList, "abc123".toList), ("sam".toList, "def456".toList)]
      "Sign in".toList "sam".toList "def456".toList ResponseWriter.fresh
      (requestWith "GET" "sam" "def456") (by decide) (by decide) rfl⟩

/-- C2 (soundness of the gate). For a configuration string whose comma-separated entries each
split at `:` into exactly two fields, a request whose Basic Auth header carries a pair `(u, p)`
different from the two fields of every entry is answered, for every realm, every downstream
handler and every response writer on which no status was written, with the rejection
`unauthorised realm w`, which does not depend on the handler (the handler is not called):
status 401, header `WWW-Authenticate` equal to `Basic realm="R"`, and `Unauthorised.\n`
appended to the body. -/
theorem BasicAuth_sound (handler : HandlerFunc) (cfg realm u p : GoString)
    (w : ResponseWriter) (r : Request)
    (hwf : ∀ e ∈ stringsSplit ',' cfg, (stringsSplit ':' e).length = 2)
    (hne : ∀ e ∈ stringsSplit ',' cfg, stringsSplit ':' e ≠ [u, p])
    (hreq : r.Authorization = some (u, p)) (hw : w.statusCode = none) :
    BasicAuth handler cfg realm w r = .ok (unauthorised realm w)
    ∧ (unauthorised realm w).statusCode = some 401
    ∧ (unauthorised realm w).HeaderGet "WWW-Authenticate".toList =
        some ("Basic realm=\"".toList ++ realm ++ "\"".toList)
    ∧ (unauthorised realm w).body = w.body ++ "Unauthorised.\n".toList := by
  refine ⟨?_, unauthorised_statusCode realm w hw, unauthorised_header realm w,
    unauthorised_body realm w⟩
  have hloop := loginLoop_of_two_fields u p (stringsSplit ',' cfg) (by
    intro e he
    rw [hwf e he])
  have hany : (stringsSplit ',' cfg).any (firstTwoMatch u p) = false := by
    rw [List.any_eq_false]
    intro e he
    have h2 := hwf e he
    have h3 := hne e he
    have : (stringsSplit ':' e).take 2 = stringsSplit ':' e := by
      rw [List.take_of_length_le (by rw [h2])]
    simp [firstTwoMatch, this, h3]
  rw [hany] at hloop
  rw [BasicAuth_of_header handler cfg realm u p w r false hreq hloop]
  rfl

/-- C2 at `mike:abc123,sam:def456` with a wrong password and with the password of the other
entry, and at `alice:pw` with the user `Alice`: the probe handler does not run. -/
theorem BasicAuth_sound_witness :
    BasicAuth probe mikeSam "Sign in".toList ResponseWriter.fresh
        (requestWith "GET" "mike" "wrong") = .ok (rejection "Sign in")
    ∧ BasicAuth probe mikeSam "Sign in".toList ResponseWriter.fresh
        (requestWith "GET" "mike" "def456") = .ok (rejection "Sign in")
    ∧ BasicAuth probe "alice:pw".toList "Sign in".toList ResponseWriter.fresh
        (requestWith "GET" "Alice" "pw") = .ok (rejection "Sign in") :=
  ⟨(BasicAuth_sound probe mikeSam "Sign in".toList "mike".toList "wrong".toList
      ResponseWriter.fresh (requestWith "GET" "mike" "wrong")
      (by decide) (by decide) rfl rfl).1,
   (BasicAuth_sound probe mikeSam "Sign in".toList "mike".toList "def456".toList
      ResponseWriter.fresh (requestWith "GET" "mike" "def456")
      (by decide) (by decide) rfl rfl).1,
   (BasicAuth_sound probe "alice:pw".toList "Sign in".toList "Alice".toList "pw".toList
      ResponseWriter.fresh (requestWith "GET" "Alice" "pw")
      (by decide) (by decide) rfl rfl).1⟩

/-- C3 (missing or malformed header). For a configuration string whose comma-separated
entries each split at `:` into exactly two fields (the entry `:` with empty user and empty
password included), a request for which `r.BasicAuth()` reports the header absent or
malformed is answered, for every realm, every downstream handler and every response writer
on which no status was written, with the rejection `unauthorised realm w`, which does not
depend on the handler (the handler is not called): status 401, the `WWW-Authenticate`
challenge, and `Unauthorised.\n` appended to the body. -/
theorem BasicAuth_no_header (handler : HandlerFunc) (cfg realm : GoString)
    (w : ResponseWriter) (r : Request)
    (hwf : ∀ e ∈ stringsSplit ',' cfg, (stringsSplit ':' e).length = 2)
    (hreq : r.Authorization = none) (hw : w.statusCode = none) :
    BasicAuth handler cfg realm w r = .ok (unauthorised realm w)
    ∧ (unauthorised realm w).statusCode = some 401
    ∧ (unauthorised realm w).HeaderGet "WWW-Authenticate".toList =
        some ("Basic realm=\"".toList ++ realm ++ "\"".toList)
    ∧ (unauthorised realm w).body = w.body ++ "Unauthorised.\n".toList := by
  refine ⟨?_, unauthorised_statusCode realm w hw, unauthorised_header realm w,
    unauthorised_body realm w⟩
  have hloop := loginLoop_of_two_fields [] [] (stringsSplit ',' cfg) (by
    intro e he
    rw [hwf e he])
  exact BasicAuth_of_no_header handler cfg realm w r _ hreq hloop

/-- C3 at the configurations `:` and `mike:abc123,:` with a request without header: although
the entry `:` equals the empty user and password, the probe handler does not run. -/
theorem BasicAuth_no_header_witness :
    BasicAuth probe ":".toList "Sign in".toList ResponseWriter.fresh
        (requestNoHeader "GET") = .ok (rejection "Sign in")
    ∧ BasicAuth probe "mike:abc123,:".toList "Sign in".toList ResponseWriter.fresh
        (requestNoHeader "GET") = .ok (rejection "Sign in") :=
  ⟨(BasicAuth_no_header probe ":".toList "Sign in".toList ResponseWriter.fresh
      (requestNoHeader "GET") (by decide) rfl rfl).1,
   (BasicAuth_no_header probe "mike:abc123,:".toList "Sign in".toList ResponseWriter.fresh
      (requestNoHeader "GET") (by decide) rfl rfl).1⟩

/-! ## The gate: empty configuration and entries without colon -/

/-- C4 (empty configuration), as the code behaves. With the configuration string empty,
`strings.Split` yields the single entry `""`, whose split at `:` has the single field `""`.
A request without header, or with a header whose user is empty, matches that field and the
evaluation of `userPass[1]` panics with index out of range [1] with length 1: no 401 response
is written. Every other request is rejected with the 401 response. -/
theorem BasicAuth_empty_config (handler : HandlerFunc) (realm : GoString)
    (w : ResponseWriter) (r : Request) :
    BasicAuth handler [] realm w r =
      if r.BasicAuth.1 = [] then .error (Fault.indexOutOfRange 1 1)
      else .ok (unauthorised realm w) := by
  have hsplit : stringsSplit ',' ([] : GoString) = [[]] := rfl
  have hfield : stringsSplit ':' ([] : GoString) = [[]] := rfl
  cases hr : r.Authorization with
  | none =>
    have hb : r.BasicAuth = ([], [], false) := by simp [Request.BasicAuth, hr]
    rw [if_pos (by rw [hb])]
    apply BasicAuth_of_fault
    rw [hb, hsplit, loginLoop_cons_one [] [] [] [] [] hfield]
    simp
  | some c =>
    obtain ⟨u, p⟩ := c
    have hb : r.BasicAuth = (u, p, true) := by simp [Request.BasicAuth, hr]
    by_cases hu : u = []
    · rw [if_pos (by rw [hb]; exact hu)]
      apply BasicAuth_of_fault
      rw [hb, hsplit, loginLoop_cons_one u p [] [] [] hfield]
      simp [hu]
    · rw [if_neg (by rw [hb]; exact hu)]
      have hloop : loginLoop u p (stringsSplit ',' []) = .ok false := by
        rw [hsplit, loginLoop_cons_one u p [] [] [] hfield]
        simp [hu, loginLoop]
      rw [BasicAuth_of_header handler [] realm u p w r false hr hloop]
      rfl

/-- C5 (entry without colon), as the code behaves. With the configuration `alice`, a request
whose header carries the user `alice` with any password panics with index out of range [1]
with length 1; so does, with the configuration `mike:abc123,` (trailing comma), a request
without header. In neither case is a response written or the downstream handler called. -/
theorem BasicAuth_entry_without_colon (handler : HandlerFunc) (realm method path pass : GoString)
    (w : ResponseWriter) :
    BasicAuth handler "alice".toList realm w ⟨method, path, some ("alice".toList, pass)⟩ =
      .error (Fault.indexOutOfRange 1 1)
    ∧ BasicAuth handler "mike:abc123,".toList realm w ⟨method, path, none⟩ =
      .error (Fault.indexOutOfRange 1 1) := by
  constructor
  · apply BasicAuth_of_fault
    have hsplit : stringsSplit ',' "alice".toList = ["alice".toList] := by decide
    have hfield : stringsSplit ':' "alice".toList = ["alice".toList] := by decide
    simp only [Request.BasicAuth]
    rw [hsplit, loginLoop_cons_one _ pass _ _ [] hfield]
    simp
  · apply BasicAuth_of_fault
    have hsplit : stringsSplit ',' "mike:abc123,".toList = ["mike:abc123".toList, []] := by
      decide
    have hfield : stringsSplit ':' "mike:abc123".toList = ["mike".toList, "abc123".toList] := by
      decide
    have hempty : stringsSplit ':' ([] : GoString) = [[]] := rfl
    simp only [Request.BasicAuth]
    rw [hsplit, loginLoop_cons_two [] [] _ _ _ [] _ hfield, if_neg (by decide),
      loginLoop_cons_one [] [] [] [] [] hempty]
    simp

/-! ## The composed handler: method routing behind the gate -/

/-- C6 (other methods are refused), refuted as stated: with the configuration
`mike:abc123,sam:def456`, the credentials `sam` / `def456` and the method `DELETE`, the
response has status 405 and the storage collaborator is not called, but the body is
`405 - Method Not Allowed` followed by the newline that `http.Error` prints, not that text
alone. -/
theorem ProxyHTTPGCS_body_counterexample :
    ∃ w', BasicAuth (ProxyHTTPGCS probe) mikeSam "Sign in".toList ResponseWriter.fresh
        (requestWith "DELETE" "sam" "def456") = .ok w'
      ∧ w'.statusCode = some 405
      ∧ w'.body = "405 - Method Not Allowed\n".toList
      ∧ w'.body ≠ "405 - Method Not Allowed".toList :=
  ⟨_, rfl, rfl, rfl, by decide⟩

/-- C6 as amended. For a configuration string whose comma-separated entries each split at
`:` into exactly two fields, a request whose header carries the two fields of some entry and
whose method is any string other than exactly `GET` gets from the composed handler
`BasicAuth(ProxyHTTPGCS, config, realm)`, on a response writer on which no status was
written, the response of `http.Error`, which does not depend on the storage collaborator
(`config.GET` is not called): status 405 and the body `405 - Method Not Allowed` followed by
a newline. -/
theorem BasicAuth_ProxyHTTPGCS_other_method (GET : HandlerFunc) (cfg realm u p : GoString)
    (w : ResponseWriter) (r : Request)
    (hwf : ∀ e ∈ stringsSplit ',' cfg, (stringsSplit ':' e).length = 2)
    (hmem : ∃ e ∈ stringsSplit ',' cfg, stringsSplit ':' e = [u, p])
    (hreq : r.Authorization = some (u, p)) (hmethod : r.Method ≠ "GET".toList)
    (hw : w.statusCode = none) :
    BasicAuth (ProxyHTTPGCS GET) cfg realm w r =
      .ok (httpError w "405 - Method Not Allowed".toList 405)
    ∧ (httpError w "405 - Method Not Allowed".toList 405).statusCode = some 405
    ∧ (httpError w "405 - Method Not Allowed".toList 405).body =
        w.body ++ "405 - Method Not Allowed\n".toList := by
  refine ⟨?_, httpError_statusCode w _ 405 hw, ?_⟩
  · rw [BasicAuth_pass (ProxyHTTPGCS GET) cfg realm u p w r
      (fun e he => by rw [hwf e he])
      (by
        obtain ⟨e, he, hm⟩ := hmem
        exact ⟨e, he, by rw [take_two_of_length_two _ (hwf e he), hm]⟩)
      hreq]
    unfold ProxyHTTPGCS
    rw [if_neg hmethod]
    rfl
  · rw [httpError_body]
    rfl

/-- C6 as amended, at `mike:abc123,sam:def456` with `sam` / `def456`: the methods `DELETE`
and lowercase `get` are answered 405 and the probe collaborator does not run. -/
theorem BasicAuth_ProxyHTTPGCS_other_method_witness :
    BasicAuth (ProxyHTTPGCS probe) mikeSam "Sign in".toList ResponseWriter.fresh
        (requestWith "DELETE" "sam" "def456") =
      .ok ⟨[("X-Content-Type-Options".toList, "nosniff".toList),
            ("Content-Type".toList, "text/plain; charset=utf-8".toList)],
          some 405, "405 - Method Not Allowed\n".toList⟩
    ∧ BasicAuth (ProxyHTTPGCS probe) mikeSam "Sign in".toList ResponseWriter.fresh
        (requestWith "get" "sam" "def456") =
      .ok ⟨[("X-Content-Type-Options".toList, "nosniff".toList),
            ("Content-Type".toList, "text/plain; charset=utf-8".toList)],
          some 405, "405 - Method Not Allowed\n".toList⟩ :=
  ⟨(BasicAuth_ProxyHTTPGCS_other_method probe mikeSam "Sign in".toList "sam".toList
      "def456".toList ResponseWriter.fresh (requestWith "DELETE" "sam" "def456")
      (by decide) (by decide) rfl (by decide) rfl).1,
   (BasicAuth_ProxyHTTPGCS_other_method probe mikeSam "Sign in".toList "sam".toList
      "def456".toList ResponseWriter.fresh (requestWith "get" "sam" "def456")
      (by decide) (by decide) rfl (by decide) rfl).1⟩

/-! ## Entries with more than two fields -/

/-- C8 (only entries with exactly two fields are credentials), refuted as stated: with the
configuration `a:b:c` the request with user `a` and password `b` is not rejected; the probe
handler runs. -/
theorem BasicAuth_three_fields_counterexample :
    ∃ w', BasicAuth probe "a:b:c".toList "Sign in".toList ResponseWriter.fresh
        (requestWith "GET" "a" "b") = .ok w'
      ∧ w' = ⟨[], some 200, "served /file.txt".toList⟩
      ∧ w' ≠ rejection "Sign in" :=
  ⟨_, rfl, rfl, by decide⟩

/-- C8 as amended. The code does not look at the number of fields of an entry beyond the
first two. For a configuration string in which every entry has at least two fields, a
request with a well-formed header is handed to the downstream handler when its user and
password are the first two fields of some entry (further fields are ignored), and is
otherwise rejected with the 401 response without the handler being called. -/
theorem BasicAuth_first_two_fields (handler : HandlerFunc) (cfg realm u p : GoString)
    (w : ResponseWriter) (r : Request)
    (hwf : ∀ e ∈ stringsSplit ',' cfg, 2 ≤ (stringsSplit ':' e).length)
    (hreq : r.Authorization = some (u, p)) :
    ((∃ e ∈ stringsSplit ',' cfg, (stringsSplit ':' e).take 2 = [u, p]) →
        BasicAuth handler cfg realm w r = handler w r)
    ∧ ((¬ ∃ e ∈ stringsSplit ',' cfg, (stringsSplit ':' e).take 2 = [u, p]) →
        BasicAuth handler cfg realm w r = .ok (unauthorised realm w)) :=
  ⟨fun hmem => BasicAuth_pass handler cfg realm u p w r hwf hmem hreq,
   fun hno => BasicAuth_reject handler cfg realm u p w r hwf hno hreq⟩

/-- C8 as amended, at the configuration `a:b:c`: the pair `a` / `b` passes and the pair
`a` / `b:c` is rejected. -/
theorem BasicAuth_first_two_fields_witness :
    BasicAuth probe "a:b:c".toList "Sign in".toList ResponseWriter.fresh
        (requestWith "GET" "a" "b") = .ok ⟨[], some 200, "served /file.txt".toList⟩
    ∧ BasicAuth probe "a:b:c".toList "Sign in".toList ResponseWriter.fresh
        (requestWith "GET" "a" "b:c") = .ok (rejection "Sign in") :=
  ⟨(BasicAuth_first_two_fields probe "a:b:c".toList "Sign in".toList "a".toList "b".toList
      ResponseWriter.fresh (requestWith "GET" "a" "b") (by decide) rfl).1 (by decide),
   (BasicAuth_first_two_fields probe "a:b:c".toList "Sign in".toList "a".toList "b:c".toList
      ResponseWriter.fresh (requestWith "GET" "a" "b:c") (by decide) rfl).2 (by decide)⟩

/-! ## Order of the entries -/

theorem any_firstTwoMatch_perm (u p : GoString) (es es' : List GoString)
    (hperm : es.Perm es') :
    es.any (firstTwoMatch u p) = es'.any (firstTwoMatch u p) := by
  rw [Bool.eq_iff_iff, List.any_eq_true, List.any_eq_true]
  constructor
  · rintro ⟨e, he, hm⟩
    exact ⟨e, hperm.mem_iff.mp he, hm⟩
  · rintro ⟨e, he, hm⟩
    exact ⟨e, hperm.mem_iff.mpr he, hm⟩

/-- The gate on a non-empty list of comma-free entries with exactly two fields each. -/
theorem BasicAuth_joinEntries (handler : HandlerFunc) (es : List GoString)
    (realm : GoString) (w : ResponseWriter) (r : Request)
    (hwf : ∀ e ∈ es, ',' ∉ e ∧ (stringsSplit ':' e).length = 2) (hne : es ≠ []) :
    BasicAuth handler (joinEntries es) realm w r =
      match r.Authorization with
      | none => .ok (unauthorised realm w)
      | some (u, p) =>
        if es.any (firstTwoMatch u p) then handler w r else .ok (unauthorised realm w) := by
  have hsplit : stringsSplit ',' (joinEntries es) = es :=
    stringsSplit_intercalate ',' es (fun e he => (hwf e he).1) hne
  have hlen : ∀ e ∈ es, 2 ≤ (stringsSplit ':' e).length := fun e he => by
    rw [(hwf e he).2]
  cases hr : r.Authorization with
  | none =>
    have hloop := loginLoop_of_two_fields [] [] es hlen
    rw [← hsplit] at hloop
    exact BasicAuth_of_no_header handler _ realm w r _ hr hloop
  | some c =>
    obtain ⟨u, p⟩ := c
    have hloop := loginLoop_of_two_fields u p es hlen
    rw [← hsplit] at hloop
    rw [BasicAuth_of_header handler _ realm u p w r _ hr hloop, hsplit]

/-- C10 (the order of the credential list does not matter). For every list of entries, each
free of `,` and splitting at `:` into exactly two fields, and every permutation of it, the
functions returned by `BasicAuth` for the two lists joined with `,` give the same result for
every realm, downstream handler, response writer and request (header absent or present).
When the list is not empty that common result is either the call `handler(w, r)` or the 401
response `unauthorised realm w`. -/
theorem BasicAuth_perm (handler : HandlerFunc) (es es' : List GoString)
    (realm : GoString) (w : ResponseWriter) (r : Request)
    (hwf : ∀ e ∈ es, ',' ∉ e ∧ (stringsSplit ':' e).length = 2) (hperm : es.Perm es') :
    BasicAuth handler (joinEntries es) realm w r =
      BasicAuth handler (joinEntries es') realm w r
    ∧ (es ≠ [] →
        (BasicAuth handler (joinEntries es) realm w r = handler w r
          ∧ BasicAuth handler (joinEntries es') realm w r = handler w r)
        ∨ (BasicAuth handler (joinEntries es) realm w r = .ok (unauthorised realm w)
          ∧ BasicAuth handler (joinEntries es') realm w r = .ok (unauthorised realm w))) := by
  by_cases hne : es = []
  · subst hne
    rw [List.Perm.nil_eq hperm]
    exact ⟨rfl, fun h => absurd rfl h⟩
  · have hne' : es' ≠ [] := fun h => hne (List.Perm.eq_nil (h ▸ hperm))
    have hwf' : ∀ e ∈ es', ',' ∉ e ∧ (stringsSplit ':' e).length = 2 :=
      fun e he => hwf e (hperm.mem_iff.mpr he)
    have h1 := BasicAuth_joinEntries handler es realm w r hwf hne
    have h2 := BasicAuth_joinEntries handler es' realm w r hwf' hne'
    cases hr : r.Authorization with
    | none =>
      rw [hr] at h1 h2
      exact ⟨h1.trans h2.symm, fun _ => Or.inr ⟨h1, h2⟩⟩
    | some c =>
      obtain ⟨u, p⟩ := c
      rw [hr] at h1 h2
      simp only at h1 h2
      rw [← any_firstTwoMatch_perm u p es es' hperm] at h2
      refine ⟨h1.trans h2.symm, fun _ => ?_⟩
      cases hany : es.any (firstTwoMatch u p)
      · rw [hany] at h1 h2
        exact Or.inr ⟨h1, h2⟩
      · rw [hany] at h1 h2
        exact Or.inl ⟨h1, h2⟩

/-- C10 at the entries `mike:abc123`, `sam:def456` and their swap: the credentials of `sam`
pass both gates and run the probe handler once. -/
theorem BasicAuth_perm_witness :
    BasicAuth probe "mike:abc123,sam:def456".toList "Sign in".toList ResponseWriter.fresh
        (requestWith "GET" "sam" "def456") =
      BasicAuth probe "sam:def456,mike:abc123".toList "Sign in".toList ResponseWriter.fresh
        (requestWith "GET" "sam" "def456") :=
  (BasicAuth_perm probe ["mike:abc123".toList, "sam:def456".toList]
    ["sam:def456".toList, "mike:abc123".toList] "Sign in".toList ResponseWriter.fresh
    (requestWith "GET" "sam" "def456") (by decide) (List.Perm.swap _ _ [])).1

/-! ## The exact outcome of the gate -/

theorem stringsSplit_of_not_mem (sep : Char) (s : GoString) (h : sep ∉ s) :
    stringsSplit sep s = [s] := by
  induction s with
  | nil => rfl
  | cons c s ih =>
    have hc : c ≠ sep := fun hc => h (by rw [hc]; exact List.mem_cons_self _ _)
    have hs : sep ∉ s := fun hs => h (List.mem_cons_of_mem _ hs)
    rw [stringsSplit, if_neg hc, ih hs]

theorem stringsSplit_length_of_mem (sep : Char) (s : GoString) (h : sep ∈ s) :
    2 ≤ (stringsSplit sep s).length := by
  induction s with
  | nil => exact absurd h (List.not_mem_nil _)
  | cons c s ih =>
    rw [stringsSplit]
    by_cases hc : c = sep
    · rw [if_pos hc]
      have hne := stringsSplit_ne_nil sep s
      cases hs : stringsSplit sep s with
      | nil => exact absurd hs hne
      | cons f fs => simp
    · rw [if_neg hc]
      have hs : sep ∈ s := by
        rcases List.mem_cons.mp h with h1 | h1
        · exact absurd h1.symm hc
        · exact h1
      have hlen := ih hs
      cases hs' : stringsSplit sep s with
      | nil => rw [hs'] at hlen; simp at hlen
      | cons f fs => rw [hs'] at hlen; simpa using hlen

/-- The scan condition, said with positions: the list of entries is `pre ++ e :: post` where
`e` contains no `:` and equals the user, and no entry of `pre` has the user and the password
as its first two fields. -/
theorem colonlessBeforeMatch_iff (u p : GoString) (es : List GoString) :
    colonlessBeforeMatch u p es = true ↔
      ∃ pre e post, es = pre ++ e :: post ∧ ':' ∉ e ∧ e = u ∧
        ∀ x ∈ pre, firstTwoMatch u p x = false := by
  induction es with
  | nil => simp [colonlessBeforeMatch]
  | cons x rest ih =>
    by_cases hf : firstTwoMatch u p x = true
    · have hl : colonlessBeforeMatch u p (x :: rest) = false := by
        simp [colonlessBeforeMatch, hf]
      rw [hl]
      constructor
      · intro h
        cases h
      · rintro ⟨pre, e, post, heq, hc, _, hpre⟩
        cases pre with
        | nil =>
          simp only [List.nil_append, List.cons.injEq] at heq
          obtain ⟨rfl, _⟩ := heq
          have hs := stringsSplit_of_not_mem ':' x hc
          simp [firstTwoMatch, hs] at hf
        | cons y pre' =>
          simp only [List.cons_append, List.cons.injEq] at heq
          obtain ⟨rfl, _⟩ := heq
          have hx := hpre x (List.mem_cons_self _ _)
          rw [hf] at hx
          cases hx
    · have hf' : firstTwoMatch u p x = false := by simpa using hf
      have hl : colonlessBeforeMatch u p (x :: rest) =
          (decide (':' ∉ x ∧ x = u) || colonlessBeforeMatch u p rest) := by
        simp [colonlessBeforeMatch, hf']
      rw [hl, Bool.or_eq_true, ih]
      constructor
      · rintro (h | ⟨pre, e, post, heq, hc, he, hpre⟩)
        · have h' := of_decide_eq_true h
          exact ⟨[], x, rest, rfl, h'.1, h'.2, fun y hy => absurd hy (List.not_mem_nil _)⟩
        · refine ⟨x :: pre, e, post, by rw [heq]; rfl, hc, he, fun y hy => ?_⟩
          rcases List.mem_cons.mp hy with hy | hy
          · rw [hy]
            exact hf'
          · exact hpre y hy
      · rintro ⟨pre, e, post, heq, hc, he, hpre⟩
        cases pre with
        | nil =>
          simp only [List.nil_append, List.cons.injEq] at heq
          obtain ⟨rfl, _⟩ := heq
          exact Or.inl (decide_eq_true ⟨hc, he⟩)
        | cons y pre' =>
          simp only [List.cons_append, List.cons.injEq] at heq
          obtain ⟨_, rfl⟩ := heq
          exact Or.inr ⟨pre', e, post, rfl, hc, he,
            fun z hz => hpre z (List.mem_cons_of_mem _ hz)⟩

/-- The loop panics exactly when an entry without `:` equal to the user comes before any
entry whose first two fields are the user and the password; otherwise it completes and finds
a login exactly when there is such an entry. -/
theorem loginLoop_exact (user pass : GoString) (es : List GoString) :
    loginLoop user pass es =
      if colonlessBeforeMatch user pass es then .error (Fault.indexOutOfRange 1 1)
      else .ok (es.any (firstTwoMatch user pass)) := by
  induction es with
  | nil => rfl
  | cons e rest ih =>
    by_cases hc : ':' ∈ e
    · have hlen := stringsSplit_length_of_mem ':' e hc
      match hs : stringsSplit ':' e, hlen with
      | a :: b :: fs, _ =>
        rw [loginLoop_cons_two user pass e a b fs rest hs, ih]
        by_cases hm : user = a ∧ pass = b
        · obtain ⟨rfl, rfl⟩ := hm
          have hf : firstTwoMatch user pass e = true := by simp [firstTwoMatch, hs]
          simp [colonlessBeforeMatch, hf]
        · have hm' : ¬ (a = user ∧ b = pass) := fun h => hm ⟨h.1.symm, h.2.symm⟩
          have hf : firstTwoMatch user pass e = false := by simp [firstTwoMatch, hs, hm']
          rw [if_neg hm]
          simp [colonlessBeforeMatch, hf, hc]
    · have hs := stringsSplit_of_not_mem ':' e hc
      rw [loginLoop_cons_one user pass e e rest hs, ih]
      have hf : firstTwoMatch user pass e = false := by simp [firstTwoMatch, hs]
      by_cases hu : user = e
      · subst hu
        simp [colonlessBeforeMatch, hf, hc]
      · have hu' : ¬ e = user := fun h => hu h.symm
        rw [if_neg hu]
        simp [colonlessBeforeMatch, hf, hc, hu']

/-- The gate, unfolded: the panic of the loop is the panic of the gate, and otherwise the
condition of line 59 chooses between the 401 response and the downstream handler. -/
theorem BasicAuth_unfold (handler : HandlerFunc) (cfg realm : GoString)
    (w : ResponseWriter) (r : Request) :
    BasicAuth handler cfg realm w r =
      match loginLoop r.BasicAuth.1 r.BasicAuth.2.1 (stringsSplit ',' cfg) with
      | .error f => .error f
      | .ok loginFound =>
        if (!r.BasicAuth.2.2 || !loginFound) = true then .ok (unauthorised realm w)
        else handler w r := by
  unfold BasicAuth
  generalize r.BasicAuth = t
  obtain ⟨u, p, ok⟩ := t
  cases hl : loginLoop u p (stringsSplit ',' cfg) with
  | error f => simp [hl, bind, Except.bind]
  | ok loginFound => cases ok <;> cases loginFound <;> simp [hl, bind, Except.bind, pure, Except.pure]

theorem BasicAuth_of_rejects (handler : HandlerFunc) (cfg realm : GoString)
    (w : ResponseWriter) (r : Request) (h : rejects cfg r = true) :
    BasicAuth handler cfg realm w r = .ok (unauthorised realm w) := by
  rw [BasicAuth_unfold]
  unfold rejects at h
  cases hl : loginLoop r.BasicAuth.1 r.BasicAuth.2.1 (stringsSplit ',' cfg) with
  | error f => rw [hl] at h; simp at h
  | ok loginFound =>
    rw [hl] at h
    simp only at h
    simp only [h, if_true]

/-- The notion `rejects` is observable: when the gate completes although the downstream
handler would panic, the gate has rejected the request. -/
theorem rejects_of_completes (cfg realm : GoString) (w w' : ResponseWriter) (r : Request)
    (h : BasicAuth (fun _ _ => .error (Fault.other [])) cfg realm w r = .ok w') :
    rejects cfg r = true := by
  rw [BasicAuth_unfold] at h
  unfold rejects
  cases hl : loginLoop r.BasicAuth.1 r.BasicAuth.2.1 (stringsSplit ',' cfg) with
  | error f => rw [hl] at h; simp at h
  | ok loginFound =>
    rw [hl] at h
    simp only at h
    by_cases hc : (!r.BasicAuth.2.2 || !loginFound) = true
    · exact hc
    · rw [if_neg hc] at h
      simp at h

/-- The three outcomes of the gate for a given downstream handler. -/
theorem BasicAuth_cases (handler : HandlerFunc) (cfg realm : GoString)
    (w : ResponseWriter) (r : Request) :
    BasicAuth handler cfg realm w r =
      if colonlessBeforeMatch r.BasicAuth.1 r.BasicAuth.2.1 (stringsSplit ',' cfg) = true then
        .error (Fault.indexOutOfRange 1 1)
      else if r.BasicAuth.2.2 = true ∧
          (stringsSplit ',' cfg).any (firstTwoMatch r.BasicAuth.1 r.BasicAuth.2.1) = true then
        handler w r
      else .ok (unauthorised realm w) := by
  rw [BasicAuth_unfold, loginLoop_exact]
  by_cases hc : colonlessBeforeMatch r.BasicAuth.1 r.BasicAuth.2.1 (stringsSplit ',' cfg) = true
  · simp only [hc, if_true]
  · simp only [hc, if_false]
    cases r.BasicAuth.2.2 <;>
      cases (stringsSplit ',' cfg).any (firstTwoMatch r.BasicAuth.1 r.BasicAuth.2.1) <;>
      simp

/-! ## The rejection response and the exact fault condition -/

/-- C11 (the rejection response leaks nothing about credentials). For every realm `R`, any
two configuration strings, any two downstream handlers and any two requests (whatever their
header, user and password) that the gate both rejects, arriving on the same response writer
with no status written, receive the same response `unauthorised R w`, in which neither the
configurations nor the requests occur: status 401, header `WWW-Authenticate` equal to
`Basic realm="R"`, and `Unauthorised.\n` appended to the body. -/
theorem BasicAuth_rejection_realm_only (handler1 handler2 : HandlerFunc)
    (cfg1 cfg2 realm : GoString) (w : ResponseWriter) (r1 r2 : Request)
    (hrej1 : rejects cfg1 r1 = true) (hrej2 : rejects cfg2 r2 = true)
    (hw : w.statusCode = none) :
    BasicAuth handler1 cfg1 realm w r1 = BasicAuth handler2 cfg2 realm w r2
    ∧ BasicAuth handler1 cfg1 realm w r1 = .ok (unauthorised realm w)
    ∧ (unauthorised realm w).statusCode = some 401
    ∧ (unauthorised realm w).HeaderGet "WWW-Authenticate".toList =
        some ("Basic realm=\"".toList ++ realm ++ "\"".toList)
    ∧ (unauthorised realm w).body = w.body ++ "Unauthorised.\n".toList := by
  have h1 := BasicAuth_of_rejects handler1 cfg1 realm w r1 hrej1
  have h2 := BasicAuth_of_rejects handler2 cfg2 realm w r2 hrej2
  exact ⟨h1.trans h2.symm, h1, unauthorised_statusCode realm w hw,
    unauthorised_header realm w, unauthorised_body realm w⟩

/-- C11 at the realm `Sign in`: the request with a wrong password for `mike` under
`mike:abc123,sam:def456` and the request without header under `alice:pw` receive the same
response on a fresh response writer, made of the realm and fixed text only. -/
theorem BasicAuth_rejection_realm_only_witness :
    BasicAuth probe mikeSam "Sign in".toList ResponseWriter.fresh
        (requestWith "GET" "mike" "wrong") =
      BasicAuth probe "alice:pw".toList "Sign in".toList ResponseWriter.fresh
        (requestNoHeader "POST")
    ∧ BasicAuth probe mikeSam "Sign in".toList ResponseWriter.fresh
        (requestWith "GET" "mike" "wrong") = .ok (rejection "Sign in") :=
  ⟨(BasicAuth_rejection_realm_only probe probe mikeSam "alice:pw".toList "Sign in".toList
      ResponseWriter.fresh (requestWith "GET" "mike" "wrong") (requestNoHeader "POST")
      (by decide) (by decide) rfl).1,
   (BasicAuth_rejection_realm_only probe probe mikeSam "alice:pw".toList "Sign in".toList
      ResponseWriter.fresh (requestWith "GET" "mike" "wrong") (requestNoHeader "POST")
      (by decide) (by decide) rfl).2.1⟩

/-- C12 (exact fault condition of the gate). For every configuration string, realm, response
writer and request, with `(u, p, ok)` the result of `r.BasicAuth()` (user and password empty
when the header is absent or malformed): the function returned by `BasicAuth` panics with
index out of range [1] with length 1, whatever the downstream handler, if and only if an
entry that contains no `:` and equals `u` occurs before any entry whose first two
colon-separated fields are `u` and `p`; in every other case the gate completes, and it is
the call `handler(w, r)` when `ok` holds and the first two fields of some entry are `u` and
`p`, and the 401 response otherwise. -/
theorem BasicAuth_exact (cfg realm : GoString) (w : ResponseWriter) (r : Request) :
    ((∀ handler : HandlerFunc,
          BasicAuth handler cfg realm w r = .error (Fault.indexOutOfRange 1 1))
        ↔ colonlessBeforeMatch r.BasicAuth.1 r.BasicAuth.2.1 (stringsSplit ',' cfg) = true)
    ∧ ∀ handler : HandlerFunc, BasicAuth handler cfg realm w r =
        if colonlessBeforeMatch r.BasicAuth.1 r.BasicAuth.2.1 (stringsSplit ',' cfg) = true then
          .error (Fault.indexOutOfRange 1 1)
        else if r.BasicAuth.2.2 = true ∧
            (stringsSplit ',' cfg).any (firstTwoMatch r.BasicAuth.1 r.BasicAuth.2.1) = true then
          handler w r
        else .ok (unauthorised realm w) := by
  have heq : ∀ handler : HandlerFunc, BasicAuth handler cfg realm w r =
      if colonlessBeforeMatch r.BasicAuth.1 r.BasicAuth.2.1 (stringsSplit ',' cfg) = true then
        .error (Fault.indexOutOfRange 1 1)
      else if r.BasicAuth.2.2 = true ∧
          (stringsSplit ',' cfg).any (firstTwoMatch r.BasicAuth.1 r.BasicAuth.2.1) = true then
        handler w r
      else .ok (unauthorised realm w) := by
    intro handler
    rw [BasicAuth_unfold, loginLoop_exact]
    by_cases hc : colonlessBeforeMatch r.BasicAuth.1 r.BasicAuth.2.1 (stringsSplit ',' cfg) = true
    · simp only [hc, if_true]
    · simp only [hc, if_false]
      cases r.BasicAuth.2.2 <;>
        cases (stringsSplit ',' cfg).any (firstTwoMatch r.BasicAuth.1 r.BasicAuth.2.1) <;>
        simp
  refine ⟨⟨fun hall => ?_, fun hc handler => ?_⟩, heq⟩
  · by_contra hc
    have h0 := hall fun w0 _ => .ok w0
    rw [heq, if_neg hc] at h0
    split at h0 <;> simp at h0
  · rw [heq, if_pos hc]

/-- C12 at concrete configurations, with the credentials `mike` / `abc123`: the entry `mike`
before `mike:abc123` makes the gate panic, the same entry after it does not, and with the
password `wrong` the entry `mike` after `mike:abc123` makes the gate panic. -/
theorem BasicAuth_exact_witness :
    BasicAuth probe "mike,mike:abc123".toList "Sign in".toList ResponseWriter.fresh
        (requestWith "GET" "mike" "abc123") = .error (Fault.indexOutOfRange 1 1)
    ∧ BasicAuth probe "mike:abc123,mike".toList "Sign in".toList ResponseWriter.fresh
        (requestWith "GET" "mike" "abc123") = .ok ⟨[], some 200, "served /file.txt".toList⟩
    ∧ BasicAuth probe "mike:abc123,mike".toList "Sign in".toList ResponseWriter.fresh
        (requestWith "GET" "mike" "wrong") = .error (Fault.indexOutOfRange 1 1)
    ∧ BasicAuth probe "mike:abc123,mike".toList "Sign in".toList ResponseWriter.fresh
        (requestWith "GET" "sam" "abc123") = .ok (rejection "Sign in") :=
  ⟨(BasicAuth_exact "mike,mike:abc123".toList "Sign in".toList ResponseWriter.fresh
      (requestWith "GET" "mike" "abc123")).2 probe,
   (BasicAuth_exact "mike:abc123,mike".toList "Sign in".toList ResponseWriter.fresh
      (requestWith "GET" "mike" "abc123")).2 probe,
   (BasicAuth_exact "mike:abc123,mike".toList "Sign in".toList ResponseWriter.fresh
      (requestWith "GET" "mike" "wrong")).2 probe,
   (BasicAuth_exact "mike:abc123,mike".toList "Sign in".toList ResponseWriter.fresh
      (requestWith "GET" "sam" "abc123")).2 probe⟩

/-! ## The composed handler on an authenticated GET -/

/-- C7 (authenticated GET is dispatched unchanged), as the code behaves. For the composed
handler `BasicAuth(ProxyHTTPGCS, config, realm)`, every storage collaborator, realm, response
writer and every request with method `GET` whose header carries `(u, p)`: when an entry
without `:` equal to `u` comes before any entry whose first two fields are `u` and `p`, the
handler panics with index out of range [1] with length 1 and `config.GET` is not called;
otherwise, when the first two fields of some entry are `u` and `p`, the result is exactly
the single call of `config.GET` on the original response writer and request (path
included); otherwise it is the 401 response. With the configuration `mike,mike:abc123`
the credentials `mike` / `abc123`, although listed, meet the panic; with
`mike:abc123,sam:def456` they are dispatched. -/
theorem BasicAuth_ProxyHTTPGCS_GET_outcome (GET : HandlerFunc) (cfg realm u p path : GoString)
    (w : ResponseWriter) :
    BasicAuth (ProxyHTTPGCS GET) cfg realm w ⟨"GET".toList, path, some (u, p)⟩ =
      (if colonlessBeforeMatch u p (stringsSplit ',' cfg) = true then
        .error (Fault.indexOutOfRange 1 1)
      else if (stringsSplit ',' cfg).any (firstTwoMatch u p) = true then
        GET w ⟨"GET".toList, path, some (u, p)⟩
      else .ok (unauthorised realm w))
    ∧ BasicAuth (ProxyHTTPGCS GET) "mike,mike:abc123".toList realm w
        ⟨"GET".toList, path, some ("mike".toList, "abc123".toList)⟩ =
      .error (Fault.indexOutOfRange 1 1)
    ∧ BasicAuth (ProxyHTTPGCS GET) mikeSam realm w
        ⟨"GET".toList, path, some ("mike".toList, "abc123".toList)⟩ =
      GET w ⟨"GET".toList, path, some ("mike".toList, "abc123".toList)⟩ := by
  have hgen : ∀ (c a b : GoString),
      BasicAuth (ProxyHTTPGCS GET) c realm w ⟨"GET".toList, path, some (a, b)⟩ =
        (if colonlessBeforeMatch a b (stringsSplit ',' c) = true then
          .error (Fault.indexOutOfRange 1 1)
        else if (stringsSplit ',' c).any (firstTwoMatch a b) = true then
          GET w ⟨"GET".toList, path, some (a, b)⟩
        else .ok (unauthorised realm w)) := by
    intro c a b
    rw [BasicAuth_cases]
    have hb : (⟨"GET".toList, path, some (a, b)⟩ : Request).BasicAuth = (a, b, true) := rfl
    have hget : ProxyHTTPGCS GET w ⟨"GET".toList, path, some (a, b)⟩ =
        GET w ⟨"GET".toList, path, some (a, b)⟩ := by
      unfold ProxyHTTPGCS
      rw [if_pos rfl]
    rw [hb, hget]
    simp only [true_and]
  refine ⟨hgen cfg u p, ?_, ?_⟩
  · rw [hgen, if_pos (by decide)]
  · rw [hgen, if_neg (by decide), if_pos (by decide)]

end GcsProxy
